import Mathlib

/-!
Verification of the recursive sitemap resolution engine of the repository
(`src/backend/src/core/parsing/sitemap_parser.py` and
`src/backend/src/services/parsing_service.py`), as a shallow embedding.

Modelling decisions, kept uniform throughout:
* An `ElementTree` element (`xml.etree.ElementTree`) is a tree `XmlElem` of
  (fully qualified tag, optional text, children).  `ET.fromstring` either
  raises `ParseError` or yields such a tree, so a document that has been
  fetched and decoded is represented by an `Option XmlElem` (`none` =
  malformed markup).
* The network/decompression/parsing pipeline of `parse_sitemap_url`
  (`client.get` + `raise_for_status` + gzip handling + `ET.fromstring`,
  lines 63-75) is abstracted into an oracle `Env.fetch : String → Option
  XmlElem`; `none` stands for any of the exceptions caught at lines 97-105
  (`httpx.HTTPError`, decompression failure, `ET.ParseError`, anything
  else), all of which make `parse_sitemap_url` return `[]`.
* External library functions that the source calls are carried in the
  environment so that theorems quantify over their behaviour:
  `Env.urljoin` models `urllib.parse.urljoin`, and `Env.floatAccepts s`
  models whether the builtin `float(s)` succeeds (`float` raises
  `ValueError` on a non-numeric string and `TypeError` on `None`).
  Concrete instantiations (`modelUrljoin`, `modelFloatAccepts`,
  `modelSchemeHost`) are given below for closed evaluations.
* `settings.MAX_URLS_PER_SITEMAP` (`src/core/config.py` line 54, default
  50000, overridable through the environment) is the field `Env.maxUrls`.
* Machine integers do not occur: all counts are small non-negative Python
  ints, embedded as `Nat`.
* Wall-clock fields of the service result (`started_at`, `completed_at`)
  and the logging calls are side effects with no influence on the data
  flow and are omitted; `fetch_trace` is added to the traversal state as a
  pure observation recording every `client.get` call, in order, so that
  "fetched at most once" claims can be stated.
-/

/-- One parsed XML element: fully qualified tag (as produced by
`ElementTree`, i.e. `\x7bnamespace-uri\x7dlocalname` for namespaced
markup), optional text payload, and the list of child elements. -/
inductive XmlElem : Type where
  | mk (tag : String) (text : Option String) (children : List XmlElem)

def XmlElem.tag : XmlElem → String
  | .mk t _ _ => t

def XmlElem.text : XmlElem → Option String
  | .mk _ tx _ => tx

def XmlElem.children : XmlElem → List XmlElem
  | .mk _ _ cs => cs

/-- The sitemap namespace of `NAMESPACES['ns']` (sitemap_parser.py line 18),
in `ElementTree`'s qualified-tag syntax. -/
def nsTag (localName : String) : String :=
  "\x7bhttp://www.sitemaps.org/schemas/sitemap/0.9\x7d" ++ localName

/-! ### Character-list models of the Python string methods

The source uses `str.strip`, `str.split`, `str.startswith`, `str.endswith`,
`str.lower` and the `in` operator.  They are modelled here by structural
recursion over `String.toList` so that every theorem below can be settled
by kernel evaluation on closed inputs. -/

/-- Does the first character list start with the second? -/
def charsHavePre : List Char → List Char → Bool
  | _, [] => true
  | [], _ :: _ => false
  | a :: as, b :: bs => a == b && charsHavePre as bs

/-- Python `s.startswith(pre)`. -/
def strStarts (s pre : String) : Bool :=
  charsHavePre s.toList pre.toList

/-- Python `s.endswith(suf)`. -/
def strEnds (s suf : String) : Bool :=
  charsHavePre s.toList.reverse suf.toList.reverse

/-- Does `pat` occur inside the character list (Python `pat in s`)? -/
def charsContain (pat : List Char) : List Char → Bool
  | [] => pat.isEmpty
  | c :: cs => charsHavePre (c :: cs) pat || charsContain pat cs

/-- Python `pat in s`. -/
def containsSub (s pat : String) : Bool :=
  charsContain pat.toList s.toList

/-- Python `s.strip()`: whitespace removed from both ends. -/
def strStrip (s : String) : String :=
  String.mk (((s.toList.dropWhile Char.isWhitespace).reverse.dropWhile
    Char.isWhitespace).reverse)

/-- Lower-case one ASCII letter (Python `str.lower`, restricted to the
ASCII range that sitemap URLs and robots directives use). -/
def asciiLowerChar (c : Char) : Char :=
  if 'A' ≤ c ∧ c ≤ 'Z' then Char.ofNat (c.toNat + 32) else c

/-- Python `s.lower()` on ASCII text. -/
def strLowerAscii (s : String) : String :=
  String.mk (s.toList.map asciiLowerChar)

/-- Python `s.split(sep)` for a one-character separator, keeping empty
parts (the accumulator holds the current part reversed). -/
def splitCharAux (sep : Char) : List Char → List Char → List (List Char)
  | [], acc => [acc.reverse]
  | c :: cs, acc =>
    if c == sep then acc.reverse :: splitCharAux sep cs []
    else splitCharAux sep cs (c :: acc)

/-- Python `s.split(sep)` for a one-character separator. -/
def strSplitChar (s : String) (sep : Char) : List String :=
  (splitCharAux sep s.toList []).map String.mk

/-- First occurrence of `pat`: `some (before, after)` with the match
removed, `none` when `pat` does not occur. -/
def breakOnAux (pat : List Char) : List Char → List Char → Option (List Char × List Char)
  | [], _acc => none
  | c :: cs, acc =>
    if charsHavePre (c :: cs) pat then some (acc.reverse, (c :: cs).drop pat.length)
    else breakOnAux pat cs (c :: acc)

mutual
/-- All descendants of an element in document order (preorder), the element
itself excluded: the node set searched by `root.findall('.//…')`. -/
def descendants : XmlElem → List XmlElem
  | .mk _ _ cs => descendantsList cs

def descendantsList : List XmlElem → List XmlElem
  | [] => []
  | c :: rest => c :: (descendants c ++ descendantsList rest)
end

/-- `elem.find('tag')`: first direct child with the given qualified tag. -/
def findChild (e : XmlElem) (tag : String) : Option XmlElem :=
  e.children.find? (fun c => c.tag == tag)

/-- `root.tag.split('}')[-1]` (sitemap_parser.py line 76): the part of the
tag after the last closing brace, the whole tag when there is none. -/
def tagAfterBrace (t : String) : String :=
  String.mk ((t.toList.reverse.takeWhile (fun c => c != '\x7d')).reverse)

/-- The collaborators and configuration one resolution runs against. -/
structure Env where
  /-- Fetch + decompress + `ET.fromstring` for one URL; `none` is any
  exception caught at sitemap_parser.py lines 97-105. -/
  fetch : String → Option XmlElem
  /-- `urllib.parse.urljoin`. -/
  urljoin : String → String → String
  /-- Whether the builtin `float` accepts the given string. -/
  floatAccepts : String → Bool
  /-- `settings.MAX_URLS_PER_SITEMAP`. -/
  maxUrls : Nat

/-- Lines 124-130 of `parse_sitemap_xml`: the location of one `<url>`
entry, `none` when the entry is skipped (`loc` child missing, or its text
`None` or empty — Python's truthiness test on `loc_elem.text`). A present
relative location is resolved with `urljoin(base_url, url)`. -/
def entryLoc (env : Env) (base_url : String) (url_elem : XmlElem) : Option String :=
  match findChild url_elem (nsTag "loc") with
  | none => none
  | some loc_elem =>
    match loc_elem.text with
    | none => none
    | some t =>
      if t = "" then none
      else
        let url := strStrip t
        if strStarts url "http://" || strStarts url "https://" then some url
        else some (env.urljoin base_url url)

/-- Line 141 of `parse_sitemap_xml`: building `url_data` evaluates
`float(priority.text)` whenever a `priority` child is present; this raises
(`TypeError` for `None` text, `ValueError` for a non-numeric string) and
the exception is caught by the surrounding `except Exception`, aborting
the extraction loop. `true` means the entry raises. -/
def priorityAborts (env : Env) (url_elem : XmlElem) : Bool :=
  match findChild url_elem (nsTag "priority") with
  | none => false
  | some p =>
    match p.text with
    | none => true
    | some pt => !(env.floatAccepts pt)

/-- The `for url_elem in root.findall('.//ns:url', …)` loop of
`parse_sitemap_xml` (lines 123-149), with `urls` the accumulator: skip an
entry without usable `loc`; on a `priority` that `float` rejects, return
the urls collected so far (the `except Exception` path); otherwise append
and break once `len(urls) >= settings.MAX_URLS_PER_SITEMAP`. -/
def parse_sitemap_xml_loop (env : Env) (base_url : String) :
    List XmlElem → List String → List String
  | [], urls => urls
  | url_elem :: rest, urls =>
    match entryLoc env base_url url_elem with
    | none => parse_sitemap_xml_loop env base_url rest urls
    | some url =>
      if priorityAborts env url_elem then urls
      else
        let urls' := urls ++ [url]
        if env.maxUrls ≤ urls'.length then urls'
        else parse_sitemap_xml_loop env base_url rest urls'

/-- `SitemapParser.parse_sitemap_xml` (lines 107-158).  The string content
is represented by its parse result; `none` (malformed markup) takes the
`except ET.ParseError` path and returns the empty accumulator. -/
def parse_sitemap_xml (env : Env) (xml_content : Option XmlElem) (base_url : String) :
    List String :=
  match xml_content with
  | none => []
  | some root =>
    parse_sitemap_xml_loop env base_url
      ((descendants root).filter (fun e => e.tag == nsTag "url")) []

/-- `SitemapParser._extract_sitemap_locations` (lines 208-223): the text of
the `loc` child of every `.//ns:sitemap` descendant, stripped, emitted
verbatim (no URL joining); elements without usable `loc` are skipped. -/
def extract_sitemap_locations (root : XmlElem) : List String :=
  ((descendants root).filter (fun e => e.tag == nsTag "sitemap")).filterMap (fun se =>
    match findChild se (nsTag "loc") with
    | none => none
    | some loc =>
      match loc.text with
      | none => none
      | some t => if t = "" then none else some (strStrip t))

/-- The mutable state of one `SitemapParser` instance: `discovered_urls`
and `processed_indices` (lines 37-38), plus `fetch_trace`, a pure
observation listing every URL passed to `client.get`, in order. -/
structure TState where
  discovered_urls : List String
  processed_indices : List String
  fetch_trace : List String

/-- `set.update(iterable)`: insert each element not already present. -/
def updateSet (s : List String) (xs : List String) : List String :=
  xs.foldl (fun acc x => if x ∈ acc then acc else acc ++ [x]) s

/-- The state of a freshly constructed `SitemapParser` (lines 34-38). -/
def initState : TState :=
  { discovered_urls := [], processed_indices := [], fetch_trace := [] }

/-- The `for sitemap_url in sitemaps` loop of `process_sitemap_index`
(lines 187-206), abstracted over the recursive call `f` (which is
`parse_sitemap_url` at the current remaining depth): skip URLs already in
`processed_indices`, otherwise record the URL and recurse, concatenating
the returned URL lists.  (`parse_sitemap_url` never raises, so the
per-sitemap `except` clause is dead code.) -/
def processList (f : TState → String → TState × List String) :
    TState → List String → TState × List String
  | st, [] => (st, [])
  | st, u :: rest =>
    if u ∈ st.processed_indices then
      processList f st rest
    else
      let st1 := { st with processed_indices := st.processed_indices ++ [u] }
      let r1 := f st1 u
      let r2 := processList f r1.1 rest
      (r2.1, r1.2 ++ r2.2)

/-- One pass of `SitemapParser.parse_sitemap_url` (lines 48-105) without
its recursion: `recurse`, when present, is `process_sitemap_index` at the
decremented depth.  The fetch of `url` is recorded in the trace; a
fetch/parse failure returns `[]` (lines 97-105); a `sitemapindex` root
with positive depth (`recurse = some _`) processes the extracted
locations, with exhausted depth (`recurse = none`) it returns `[]`
without recursing (lines 83-87); any other root tag takes the
`parse_sitemap_xml` branch (lines 88-91); finally
`discovered_urls.update(urls)` (line 94). -/
def parse_step (env : Env) (st : TState) (url : String)
    (recurse : Option (TState → List String → TState × List String)) :
    TState × List String :=
  let st' := { st with fetch_trace := st.fetch_trace ++ [url] }
  match env.fetch url with
  | none => (st', [])
  | some root =>
    if tagAfterBrace root.tag = "sitemapindex" then
      match recurse with
      | none => ({ st' with discovered_urls := updateSet st'.discovered_urls [] }, [])
      | some f =>
        let r := f st' (extract_sitemap_locations root)
        ({ r.1 with discovered_urls := updateSet r.1.discovered_urls r.2 }, r.2)
    else
      let urls := parse_sitemap_xml env (some root) url
      ({ st' with discovered_urls := updateSet st'.discovered_urls urls }, urls)

/-- `parse_sitemap_url` tied to its recursion: at `max_depth = 0` the
index branch does not recurse (`if max_depth > 0` is false, line 83); at
`max_depth = d + 1` index locations are processed at depth `d`
(`max_depth - 1`, line 84), and `process_sitemap_index` re-enters
`parse_sitemap_url` at that same depth (line 199). -/
def parse_url_go (env : Env) : Nat → TState → String → TState × List String
  | 0, st, url => parse_step env st url none
  | d + 1, st, url =>
    parse_step env st url (some (processList (fun s u => parse_url_go env d s u)))

/-- `parse_sitemap_url(url, max_depth)` with the Python argument order. -/
def parse_sitemap_url (env : Env) (st : TState) (url : String) (max_depth : Nat) :
    TState × List String :=
  parse_url_go env max_depth st url

/-- `SitemapParser.process_sitemap_index` (lines 176-206). -/
def process_sitemap_index (env : Env) (st : TState) (sitemaps : List String)
    (max_depth : Nat) : TState × List String :=
  processList (fun s u => parse_url_go env max_depth s u) st sitemaps

/-- The collaborators of `SitemapParser.discover_sitemap`: `client.head`
returning a status code (`none` = any exception, line 252's bare
`except`), `client.get` returning status code and body text (`none` = the
exception swallowed at line 265), and `urllib.parse.urlparse` reduced to
the `f"{parsed.scheme}://{parsed.netloc}"` string built at line 243. -/
structure DiscEnv where
  head : String → Option Nat
  get : String → Option (Nat × String)
  schemeNetloc : String → String

/-- The fixed conventional paths of `discover_sitemap` (lines 235-240),
in probing order. -/
def common_paths : List String :=
  ["/sitemap.xml", "/sitemap_index.xml", "/sitemap.xml.gz", "/sitemap/sitemap.xml"]

/-- The `for path in common_paths` loop (lines 245-253): first path whose
`HEAD` answers status 200 wins; any other status or an exception moves on
to the next path. -/
def try_common_paths (env : DiscEnv) (base : String) : List String → Option String
  | [] => none
  | p :: rest =>
    match env.head (base ++ p) with
    | some code => if code = 200 then some (base ++ p) else try_common_paths env base rest
    | none => try_common_paths env base rest

/-- `line.split(':', 1)[1].strip()` (line 262) for a line that contains a
colon: everything after the first colon, stripped. -/
def robots_line_url (line : String) : String :=
  strStrip (String.mk ((line.toList.dropWhile (fun c => c != ':')).drop 1))

/-- The `for line in response.text.split('\n')` scan (lines 260-264):
the first line whose lowercasing starts with `sitemap:` yields its URL. -/
def scan_robots_lines : List String → Option String
  | [] => none
  | line :: rest =>
    if strStarts (strLowerAscii line) "sitemap:" then some (robots_line_url line)
    else scan_robots_lines rest

/-- `SitemapParser.discover_sitemap` (lines 225-269): probe the
conventional paths against `scheme://netloc`, then fall back to scanning
`robots.txt` (only when it answers 200), and finally return `none` — a
negative result, not an error. -/
def discover_sitemap (env : DiscEnv) (base_url : String) : Option String :=
  let base := env.schemeNetloc base_url
  match try_common_paths env base common_paths with
  | some u => some u
  | none =>
    match env.get (base ++ "/robots.txt") with
    | some (code, text) =>
      if code = 200 then scan_robots_lines (strSplitChar text '\n') else none
    | none => none

/-- The observable fields of the result dict built by
`ParsingService.parse_sitemap` (parsing_service.py lines 47-55); the two
wall-clock timestamps are omitted. -/
structure ParseResult where
  urls : List String
  total_urls : Nat
  status : String
  error : Option String
deriving DecidableEq

/-- `ParsingService.parse_sitemap` (parsing_service.py lines 36-95).  A
fresh `SitemapParser` (fresh state) is created per call (line 61); the
URL is parsed directly when it looks like a sitemap (line 64), otherwise
discovery runs first, falling back to `[url]` itself (lines 67-74).
`parse_sitemap_url` catches every exception internally and returns a
plain list, so the `except` branch that would set `status = "error"`
(lines 89-93) is unreachable from fetch/parse failures: the result is
always `status = "success"` with `error = None`. -/
def parse_sitemap_service (env : Env) (denv : DiscEnv) (url : String) (max_depth : Nat) :
    ParseResult :=
  let urls :=
    if strEnds url ".xml" || strEnds url ".xml.gz" || containsSub (strLowerAscii url) "sitemap" then
      (parse_sitemap_url env initState url max_depth).2
    else
      match discover_sitemap denv url with
      | some sitemap_url => (parse_sitemap_url env initState sitemap_url max_depth).2
      | none => [url]
  { urls := urls, total_urls := urls.length, status := "success", error := none }

/-! ### Concrete models of the Python library functions

The source calls `urllib.parse.urljoin`, `urllib.parse.urlparse` and the
builtin `float`; the engine's theorems quantify over their behaviour
through `Env`/`DiscEnv`, and the following executable models (restricted
to the plain absolute-base / relative-path cases exercised by the
concrete documents below) instantiate them for closed evaluations. -/

/-- Model of `f"{urlparse(u).scheme}://{urlparse(u).netloc}"` for an
absolute `http(s)` URL: the part before `://`, then the host up to the
next slash. -/
def modelSchemeHost (u : String) : String :=
  match breakOnAux "://".toList u.toList [] with
  | some (scheme, rest) =>
    String.mk scheme ++ "://" ++ String.mk (rest.takeWhile (fun c => c != '/'))
  | none => u

/-- The base URL up to and including its last slash (the directory part
used by relative resolution). -/
def upToLastSlash (s : String) : String :=
  String.mk ((s.toList.reverse.dropWhile (fun c => c != '/')).reverse)

/-- Model of `urllib.parse.urljoin base rel` for a relative `rel` against
an absolute `http(s)` base: a root-relative path replaces the whole path,
otherwise the last path segment is replaced. -/
def modelUrljoin (base rel : String) : String :=
  if strStarts rel "/" then modelSchemeHost base ++ rel
  else upToLastSlash base ++ rel

/-- Model of the builtin `float` on a string: success exactly for an
optionally signed decimal literal with at least one digit and at most one
point (Python's `float` additionally accepts exponents/`inf`/`nan`, which
the concrete documents below do not use). -/
def modelFloatAccepts (s : String) : Bool :=
  let t := (strStrip s).toList
  let t := if charsHavePre t ['+'] || charsHavePre t ['-'] then t.drop 1 else t
  match splitCharAux '.' t [] with
  | [a] => !a.isEmpty && a.all Char.isDigit
  | [a, b] => (!a.isEmpty || !b.isEmpty) && a.all Char.isDigit && b.all Char.isDigit
  | _ => false

/-! ### Concrete sitemap documents and environments used in the closed
theorems. -/

/-- A `<loc>` element carrying the given text. -/
def locElem (t : String) : XmlElem := .mk (nsTag "loc") (some t) []

/-- A `<url><loc>t</loc></url>` leaf entry. -/
def urlEntry (t : String) : XmlElem := .mk (nsTag "url") none [locElem t]

/-- A `<urlset>` document listing the given locations. -/
def leafDoc (ts : List String) : XmlElem := .mk (nsTag "urlset") none (ts.map urlEntry)

/-- A `<sitemap><loc>t</loc></sitemap>` index reference. -/
def sitemapRef (t : String) : XmlElem := .mk (nsTag "sitemap") none [locElem t]

/-- A `<sitemapindex>` document referencing the given sitemap URLs. -/
def indexDoc (ts : List String) : XmlElem := .mk (nsTag "sitemapindex") none (ts.map sitemapRef)

/-- An environment with the default URL ceiling and the model library
functions, fetching nothing. -/
def envStd : Env :=
  { fetch := fun _ => none, urljoin := modelUrljoin,
    floatAccepts := modelFloatAccepts, maxUrls := 50000 }

/-- Ceiling 1 (`MAX_URLS_PER_SITEMAP` is environment-configurable), one
index referencing two one-entry leaves. -/
def envC1 : Env :=
  { envStd with
    maxUrls := 1,
    fetch := fun u =>
      if u = "https://x/i.xml" then
        some (indexDoc ["https://x/l1.xml", "https://x/l2.xml"])
      else if u = "https://x/l1.xml" then some (leafDoc ["https://x/p1"])
      else if u = "https://x/l2.xml" then some (leafDoc ["https://x/p2"])
      else none }

/-- A two-document reference cycle: index `a` references index `b`, which
references `a` back. -/
def envC2 : Env :=
  { envStd with
    fetch := fun u =>
      if u = "https://x/a.xml" then some (indexDoc ["https://x/b.xml"])
      else if u = "https://x/b.xml" then some (indexDoc ["https://x/a.xml"])
      else none }

/-- Root index referencing one reachable two-entry leaf and one URL whose
fetch fails. -/
def envC3 : Env :=
  { envStd with
    fetch := fun u =>
      if u = "https://x/i.xml" then
        some (indexDoc ["https://x/l1.xml", "https://x/bad.xml"])
      else if u = "https://x/l1.xml" then
        some (leafDoc ["https://x/p1", "https://x/p2"])
      else none }

/-- A discovery environment that finds nothing at all. -/
def denvNone : DiscEnv :=
  { head := fun _ => none, get := fun _ => none, schemeNetloc := modelSchemeHost }

/-- A document whose root tag is neither `urlset` nor `sitemapindex` but
which contains a namespaced `url`/`loc` pair underneath. -/
def fooDocC6 : XmlElem := .mk "foo" none [urlEntry "https://x/a"]

/-- Environment serving `fooDocC6`. -/
def envC6 : Env :=
  { envStd with
    fetch := fun u => if u = "https://x/f.xml" then some fooDocC6 else none }

/-- A leaf entry whose `priority` text is not a number. -/
def badPriorityEntry : XmlElem :=
  .mk (nsTag "url") none [locElem "https://x/a", .mk (nsTag "priority") (some "high") []]

/-- A leaf with a bad-priority first entry followed by a well-formed one. -/
def docC7 : XmlElem := .mk (nsTag "urlset") none [badPriorityEntry, urlEntry "https://x/b"]

/-- The same two locations without the offending priority. -/
def docC7ok : XmlElem := leafDoc ["https://x/a", "https://x/b"]

/-- Same page URL declared twice in one leaf and once more in a sibling
leaf. -/
def envC10 : Env :=
  { envStd with
    fetch := fun u =>
      if u = "https://x/i.xml" then
        some (indexDoc ["https://x/l1.xml", "https://x/l2.xml"])
      else if u = "https://x/l1.xml" then
        some (leafDoc ["https://x/dup", "https://x/dup"])
      else if u = "https://x/l2.xml" then
        some (leafDoc ["https://x/dup", "https://x/other"])
      else none }

/-- Discovery environment where no conventional path exists but
`robots.txt` declares a sitemap. -/
def denvC9 : DiscEnv :=
  { head := fun _ => some 404,
    get := fun u =>
      if u = "https://x/robots.txt" then
        some (200, "User-agent: *\nSitemap: https://x/custom.xml")
      else none,
    schemeNetloc := modelSchemeHost }

/-! ### Unfolding lemmas for the traversal -/

theorem parse_sitemap_url_zero (env : Env) (st : TState) (url : String) :
    parse_sitemap_url env st url 0 = parse_step env st url none := rfl

theorem parse_sitemap_url_succ (env : Env) (st : TState) (url : String) (d : Nat) :
    parse_sitemap_url env st url (d + 1) =
      parse_step env st url (some (processList (fun s u => parse_url_go env d s u))) := rfl

theorem parse_step_fetch_none (env : Env) (st : TState) (url : String)
    (recurse : Option (TState → List String → TState × List String))
    (h : env.fetch url = none) :
    parse_step env st url recurse =
      ({ st with fetch_trace := st.fetch_trace ++ [url] }, []) := by
  simp [parse_step, h]

theorem parse_step_leaf (env : Env) (st : TState) (url : String)
    (recurse : Option (TState → List String → TState × List String)) (root : XmlElem)
    (h : env.fetch url = some root)
    (h2 : ¬ tagAfterBrace root.tag = "sitemapindex") :
    parse_step env st url recurse =
      ({ { st with fetch_trace := st.fetch_trace ++ [url] } with
          discovered_urls := updateSet st.discovered_urls (parse_sitemap_xml env (some root) url) },
        parse_sitemap_xml env (some root) url) := by
  simp [parse_step, h, h2]

theorem parse_step_index_stop (env : Env) (st : TState) (url : String) (root : XmlElem)
    (h : env.fetch url = some root)
    (h2 : tagAfterBrace root.tag = "sitemapindex") :
    parse_step env st url none =
      ({ st with fetch_trace := st.fetch_trace ++ [url] }, []) := by
  simp [parse_step, h, h2, updateSet]

theorem parse_step_index_go (env : Env) (st : TState) (url : String) (root : XmlElem)
    (f : TState → List String → TState × List String)
    (h : env.fetch url = some root)
    (h2 : tagAfterBrace root.tag = "sitemapindex") :
    parse_step env st url (some f) =
      (let r := f { st with fetch_trace := st.fetch_trace ++ [url] }
         (extract_sitemap_locations root)
       ({ r.1 with discovered_urls := updateSet r.1.discovered_urls r.2 }, r.2)) := by
  simp [parse_step, h, h2]

theorem processList_nil (f : TState → String → TState × List String) (st : TState) :
    processList f st [] = (st, []) := rfl

theorem processList_cons_mem (f : TState → String → TState × List String) (st : TState)
    (u : String) (rest : List String) (h : u ∈ st.processed_indices) :
    processList f st (u :: rest) = processList f st rest := by
  simp [processList, h]

theorem processList_cons_new (f : TState → String → TState × List String) (st : TState)
    (u : String) (rest : List String) (h : u ∉ st.processed_indices) :
    processList f st (u :: rest) =
      ((processList f (f { st with processed_indices := st.processed_indices ++ [u] } u).1
          rest).1,
        (f { st with processed_indices := st.processed_indices ++ [u] } u).2 ++
          (processList f (f { st with processed_indices := st.processed_indices ++ [u] } u).1
            rest).2) := by
  simp [processList, h]

/-! ### The visited-set invariant

`F` lists the URLs a call fetches beyond the fetches already in the
incoming trace (for `parse_sitemap_url`, beyond the node's own URL).
Every such URL is new relative to the incoming `processed_indices`, ends
up recorded there, and no URL among them is fetched twice. -/

structure ShapeOk (st st' : TState) (F : List String) : Prop where
  procExt : ∃ ext, st'.processed_indices = st.processed_indices ++ ext
  nodup : F.Nodup
  fresh : ∀ v ∈ F, v ∉ st.processed_indices
  recorded : ∀ v ∈ F, v ∈ st'.processed_indices

theorem processList_shape (f : TState → String → TState × List String)
    (hf : ∀ st u, ∃ F, (f st u).1.fetch_trace = st.fetch_trace ++ u :: F ∧
      ShapeOk st (f st u).1 F) :
    ∀ (l : List String) (st : TState), ∃ F,
      (processList f st l).1.fetch_trace = st.fetch_trace ++ F ∧
      ShapeOk st (processList f st l).1 F := by
  intro l
  induction l with
  | nil =>
    intro st
    exact ⟨[], by simp [processList_nil], ⟨[], by simp [processList_nil]⟩, by simp,
      by simp, by simp⟩
  | cons u rest ih =>
    intro st
    by_cases hmem : u ∈ st.processed_indices
    · rw [processList_cons_mem f st u rest hmem]
      exact ih st
    · rw [processList_cons_new f st u rest hmem]
      obtain ⟨F1, htr1, ⟨ext1, hproc1⟩, hnd1, hold1, hnew1⟩ :=
        hf { st with processed_indices := st.processed_indices ++ [u] } u
      obtain ⟨F2, htr2, ⟨ext2, hproc2⟩, hnd2, hold2, hnew2⟩ :=
        ih (f { st with processed_indices := st.processed_indices ++ [u] } u).1
      refine ⟨u :: (F1 ++ F2), ?_, ⟨[u] ++ ext1 ++ ext2, ?_⟩, ?_, ?_, ?_⟩
      · rw [htr2, htr1]
        simp
      · rw [hproc2, hproc1]
        simp
      · refine List.nodup_cons.2 ⟨?_, List.nodup_append.2 ⟨hnd1, hnd2, ?_⟩⟩
        · intro hu
          rcases List.mem_append.1 hu with h1 | h2
          · exact hold1 u h1 (by simp)
          · exact hold2 u h2 (by rw [hproc1]; simp)
        · exact fun v hv1 hv2 => hold2 v hv2 (hnew1 v hv1)
      · intro v hv
        rcases List.mem_cons.1 hv with hv | hv
        · exact hv ▸ hmem
        · rcases List.mem_append.1 hv with h1 | h2
          · exact fun hc => hold1 v h1 (by simp [hc])
          · exact fun hc => hold2 v h2 (by rw [hproc1]; simp [hc])
      · intro v hv
        rcases List.mem_cons.1 hv with hv | hv
        · subst hv
          rw [hproc2, hproc1]
          simp
        · rcases List.mem_append.1 hv with h1 | h2
          · rw [hproc2]
            exact List.mem_append.2 (Or.inl (hnew1 v h1))
          · exact hnew2 v h2

theorem parse_step_shape (env : Env) (st : TState) (u : String)
    (recurse : Option (TState → List String → TState × List String))
    (hrec : ∀ g, recurse = some g → ∀ (st' : TState) (l : List String), ∃ F,
      (g st' l).1.fetch_trace = st'.fetch_trace ++ F ∧ ShapeOk st' (g st' l).1 F) :
    ∃ F, (parse_step env st u recurse).1.fetch_trace = st.fetch_trace ++ u :: F ∧
      ShapeOk st (parse_step env st u recurse).1 F := by
  cases hfetch : env.fetch u with
  | none =>
    rw [parse_step_fetch_none env st u recurse hfetch]
    exact ⟨[], by simp, ⟨[], by simp⟩, by simp, by simp, by simp⟩
  | some root =>
    by_cases htag : tagAfterBrace root.tag = "sitemapindex"
    · cases recurse with
      | none =>
        rw [parse_step_index_stop env st u root hfetch htag]
        exact ⟨[], by simp, ⟨[], by simp⟩, by simp, by simp, by simp⟩
      | some g =>
        rw [parse_step_index_go env st u root g hfetch htag]
        obtain ⟨F, htr, ⟨ext, hproc⟩, hnd, hold, hnew⟩ :=
          hrec g rfl { st with fetch_trace := st.fetch_trace ++ [u] }
            (extract_sitemap_locations root)
        refine ⟨F, ?_, ⟨ext, ?_⟩, hnd, hold, ?_⟩
        · rw [htr]
          simp
        · rw [hproc]
        · exact hnew
    · rw [parse_step_leaf env st u recurse root hfetch htag]
      exact ⟨[], by simp, ⟨[], by simp⟩, by simp, by simp, by simp⟩

theorem parse_shape (env : Env) :
    ∀ (d : Nat) (st : TState) (u : String), ∃ F,
      (parse_url_go env d st u).1.fetch_trace = st.fetch_trace ++ u :: F ∧
      ShapeOk st (parse_url_go env d st u).1 F := by
  intro d
  induction d with
  | zero =>
    intro st u
    exact parse_step_shape env st u none (by intro g hg; cases hg)
  | succ d ih =>
    intro st u
    refine parse_step_shape env st u _ ?_
    rintro g hg st' l
    injection hg with hg
    subst hg
    exact processList_shape (fun s v => parse_url_go env d s v) ih l st'

/-- C2: for every environment (hence every reference graph, cyclic ones
included) the resolution is a total function — it terminates — and,
starting from the fresh state of a new `SitemapParser`, the trace of
`client.get` calls starts with the root and continues with pairwise
distinct URLs; hence every URL other than the root is fetched at most
once, while the root itself is fetched at most twice (it is *not*
protected by `processed_indices`, which is populated only for URLs
reached through an index). -/
theorem c2_theorem (env : Env) (url : String) (d : Nat) (st : TState)
    (h : st = initState) :
    ∃ F, (parse_sitemap_url env st url d).1.fetch_trace = url :: F ∧ F.Nodup ∧
      ((parse_sitemap_url env st url d).1.fetch_trace).count url ≤ 2 ∧
      (∀ v, v ≠ url → ((parse_sitemap_url env st url d).1.fetch_trace).count v ≤ 1) := by
  subst h
  obtain ⟨F, htr, hshape⟩ := parse_shape env d initState url
  have htr' : (parse_sitemap_url env initState url d).1.fetch_trace = url :: F := by
    simpa [initState] using htr
  refine ⟨F, htr', hshape.nodup, ?_, ?_⟩
  · rw [htr', List.count_cons_self]
    have := List.nodup_iff_count_le_one.1 hshape.nodup url
    omega
  · intro v hv
    rw [htr', List.count_cons_of_ne hv]
    exact List.nodup_iff_count_le_one.1 hshape.nodup v

/-- C2 counterexample: in the two-document cycle `a → b → a` the root
`a` is fetched twice within a single resolution, refuting "each document
URL — including the root URL itself — is fetched at most once". -/
theorem c2_counterexample :
    (parse_sitemap_url envC2 initState "https://x/a.xml" 3).1.fetch_trace =
      ["https://x/a.xml", "https://x/b.xml", "https://x/a.xml"] ∧
    ((parse_sitemap_url envC2 initState "https://x/a.xml" 3).1.fetch_trace).count
      "https://x/a.xml" = 2 := by
  exact ⟨by decide, by decide⟩

/-- C2 witness: the amended bound instantiated on the cyclic environment. -/
theorem c2_witness :
    ∃ F, (parse_sitemap_url envC2 initState "https://x/a.xml" 3).1.fetch_trace =
        "https://x/a.xml" :: F ∧ F.Nodup ∧
      ((parse_sitemap_url envC2 initState "https://x/a.xml" 3).1.fetch_trace).count
        "https://x/a.xml" ≤ 2 ∧
      (∀ v, v ≠ "https://x/a.xml" →
        ((parse_sitemap_url envC2 initState "https://x/a.xml" 3).1.fetch_trace).count v ≤ 1) :=
  c2_theorem envC2 "https://x/a.xml" 3 initState rfl

/-! ### The returned URL list depends only on `processed_indices` -/

theorem processList_proc_only (f : TState → String → TState × List String)
    (hf : ∀ s₁ s₂ u, s₁.processed_indices = s₂.processed_indices →
      (f s₁ u).1.processed_indices = (f s₂ u).1.processed_indices ∧ (f s₁ u).2 = (f s₂ u).2) :
    ∀ (l : List String) (s₁ s₂ : TState), s₁.processed_indices = s₂.processed_indices →
      (processList f s₁ l).1.processed_indices = (processList f s₂ l).1.processed_indices ∧
      (processList f s₁ l).2 = (processList f s₂ l).2 := by
  intro l
  induction l with
  | nil => intro s₁ s₂ h; exact ⟨h, rfl⟩
  | cons u rest ih =>
    intro s₁ s₂ h
    by_cases hmem : u ∈ s₁.processed_indices
    · rw [processList_cons_mem f s₁ u rest hmem, processList_cons_mem f s₂ u rest (h ▸ hmem)]
      exact ih s₁ s₂ h
    · rw [processList_cons_new f s₁ u rest hmem,
        processList_cons_new f s₂ u rest (fun hc => hmem (h ▸ hc))]
      obtain ⟨hp1, ho1⟩ := hf { s₁ with processed_indices := s₁.processed_indices ++ [u] }
        { s₂ with processed_indices := s₂.processed_indices ++ [u] } u (by simp [h])
      obtain ⟨hp2, ho2⟩ := ih _ _ hp1
      exact ⟨hp2, by rw [ho1, ho2]⟩

theorem parse_step_proc_only (env : Env) (u : String)
    (recurse : Option (TState → List String → TState × List String))
    (hrec : ∀ g, recurse = some g → ∀ (t₁ t₂ : TState) (l : List String),
      t₁.processed_indices = t₂.processed_indices →
      (g t₁ l).1.processed_indices = (g t₂ l).1.processed_indices ∧ (g t₁ l).2 = (g t₂ l).2)
    (s₁ s₂ : TState) (h : s₁.processed_indices = s₂.processed_indices) :
    (parse_step env s₁ u recurse).1.processed_indices =
      (parse_step env s₂ u recurse).1.processed_indices ∧
    (parse_step env s₁ u recurse).2 = (parse_step env s₂ u recurse).2 := by
  cases hfetch : env.fetch u with
  | none =>
    rw [parse_step_fetch_none env s₁ u recurse hfetch,
      parse_step_fetch_none env s₂ u recurse hfetch]
    exact ⟨h, rfl⟩
  | some root =>
    by_cases htag : tagAfterBrace root.tag = "sitemapindex"
    · cases recurse with
      | none =>
        rw [parse_step_index_stop env s₁ u root hfetch htag,
          parse_step_index_stop env s₂ u root hfetch htag]
        exact ⟨h, rfl⟩
      | some g =>
        rw [parse_step_index_go env s₁ u root g hfetch htag,
          parse_step_index_go env s₂ u root g hfetch htag]
        obtain ⟨hp, ho⟩ := hrec g rfl { s₁ with fetch_trace := s₁.fetch_trace ++ [u] }
          { s₂ with fetch_trace := s₂.fetch_trace ++ [u] }
          (extract_sitemap_locations root) (by simpa using h)
        exact ⟨by simpa using hp, by simpa using ho⟩
    · rw [parse_step_leaf env s₁ u recurse root hfetch htag,
        parse_step_leaf env s₂ u recurse root hfetch htag]
      exact ⟨h, rfl⟩

theorem parse_proc_only (env : Env) :
    ∀ (d : Nat) (s₁ s₂ : TState) (u : String), s₁.processed_indices = s₂.processed_indices →
      (parse_url_go env d s₁ u).1.processed_indices =
        (parse_url_go env d s₂ u).1.processed_indices ∧
      (parse_url_go env d s₁ u).2 = (parse_url_go env d s₂ u).2 := by
  intro d
  induction d with
  | zero =>
    intro s₁ s₂ u h
    exact parse_step_proc_only env u none (by intro g hg; cases hg) s₁ s₂ h
  | succ d ih =>
    intro s₁ s₂ u h
    refine parse_step_proc_only env u _ ?_ s₁ s₂ h
    rintro g hg t₁ t₂ l hproc
    injection hg with hg
    subst hg
    exact processList_proc_only (fun s v => parse_url_go env d s v)
      (fun a b v hv => ih a b v hv) l t₁ t₂ hproc

/-- C10: the returned URL list of `parse_sitemap_url` is insensitive to
`discovered_urls` (and to the trace) — only `processed_indices` matters —
so the internally maintained `discovered_urls` set never deduplicates the
output; concretely, a page URL declared twice in one leaf and once in a
sibling leaf appears three times in the returned concatenation. -/
theorem c10_theorem :
    (∀ (env : Env) (d : Nat) (s₁ s₂ : TState) (url : String),
        s₁.processed_indices = s₂.processed_indices →
        (parse_sitemap_url env s₁ url d).2 = (parse_sitemap_url env s₂ url d).2) ∧
    (parse_sitemap_url envC10 initState "https://x/i.xml" 3).2 =
      ["https://x/dup", "https://x/dup", "https://x/dup", "https://x/other"] := by
  constructor
  · intro env d s₁ s₂ url h
    exact (parse_proc_only env d s₁ s₂ url h).2
  · decide

/-- C10 witness: pre-seeding `discovered_urls` with the duplicated URL
does not change the returned list. -/
theorem c10_witness :
    (parse_sitemap_url envC10
        { initState with discovered_urls := ["https://x/dup"] } "https://x/i.xml" 3).2 =
      (parse_sitemap_url envC10 initState "https://x/i.xml" 3).2 :=
  c10_theorem.1 envC10 3 _ initState "https://x/i.xml" rfl

/-! ### The URL ceiling is enforced per document -/

theorem xml_loop_le (env : Env) (base : String) :
    ∀ (elems : List XmlElem) (urls : List String), urls.length < env.maxUrls →
      (parse_sitemap_xml_loop env base elems urls).length ≤ env.maxUrls := by
  intro elems
  induction elems with
  | nil =>
    intro urls h
    simpa [parse_sitemap_xml_loop] using Nat.le_of_lt h
  | cons e rest ih =>
    intro urls h
    cases he : entryLoc env base e with
    | none =>
      rw [show parse_sitemap_xml_loop env base (e :: rest) urls =
          parse_sitemap_xml_loop env base rest urls from by
        simp [parse_sitemap_xml_loop, he]]
      exact ih urls h
    | some u =>
      cases hab : priorityAborts env e with
      | true =>
        rw [show parse_sitemap_xml_loop env base (e :: rest) urls = urls from by
          simp [parse_sitemap_xml_loop, he, hab]]
        exact Nat.le_of_lt h
      | false =>
        by_cases hcap : env.maxUrls ≤ urls.length + 1
        · rw [show parse_sitemap_xml_loop env base (e :: rest) urls = urls ++ [u] from by
            simp [parse_sitemap_xml_loop, he, hab, hcap]]
          simp only [List.length_append, List.length_cons, List.length_nil]
          omega
        · rw [show parse_sitemap_xml_loop env base (e :: rest) urls =
              parse_sitemap_xml_loop env base rest (urls ++ [u]) from by
            simp [parse_sitemap_xml_loop, he, hab, hcap]]
          refine ih _ ?_
          simp only [List.length_append, List.length_cons, List.length_nil]
          omega

/-- C1 (amended): the ceiling `MAX_URLS_PER_SITEMAP` bounds the number of
URLs extracted from any single document — the counter `urls` of
`parse_sitemap_xml` is local to the document, resets per document, and is
checked after each append — provided the ceiling is at least 1 (the check
sits after the append, so a ceiling of 0 would still let one URL
through). -/
theorem c1_theorem (env : Env) (xml : Option XmlElem) (base : String)
    (h : 1 ≤ env.maxUrls) :
    (parse_sitemap_xml env xml base).length ≤ env.maxUrls := by
  cases xml with
  | none => simp [parse_sitemap_xml]
  | some root =>
    exact xml_loop_le env base _ [] (by simpa using h)

/-- C1 counterexample: with a configured ceiling of 1, an index
referencing two one-entry leaves yields 2 page URLs in one resolution —
the cap is not global, extraction does not stop across documents, and
the second index reference is still followed after the first leaf
already reached the ceiling. -/
theorem c1_counterexample :
    envC1.maxUrls = 1 ∧
    (parse_sitemap_url envC1 initState "https://x/i.xml" 3).2 =
      ["https://x/p1", "https://x/p2"] :=
  ⟨rfl, by decide⟩

/-- C1 witness for the per-document bound. -/
theorem c1_witness :
    1 ≤ envStd.maxUrls ∧
    (parse_sitemap_xml envStd (some docC7ok) "https://x/").length ≤ envStd.maxUrls :=
  ⟨by decide, c1_theorem envStd (some docC7ok) "https://x/" (by decide)⟩

/-- C4 (amended): a document that is not well-formed XML makes the
extractor return the empty list (the `except ET.ParseError` handler logs
and falls through to `return urls`), and a fetch/decode/parse failure
inside `parse_sitemap_url` likewise yields the empty list — in both
places indistinguishable from a well-formed document with no URLs; no
error value is surfaced. -/
theorem c4_theorem :
    (∀ (env : Env) (base_url : String), parse_sitemap_xml env none base_url = []) ∧
    (∀ (env : Env) (st : TState) (url : String) (d : Nat), env.fetch url = none →
      (parse_sitemap_url env st url d).2 = []) := by
  constructor
  · intro env base_url
    rfl
  · intro env st url d h
    cases d with
    | zero => rw [parse_sitemap_url_zero, parse_step_fetch_none env st url none h]
    | succ d => rw [parse_sitemap_url_succ, parse_step_fetch_none env st url _ h]

/-- C4 counterexample: malformed markup and a well-formed empty `urlset`
produce the same result `[]` — the caller cannot distinguish "no URLs"
from "could not parse", refuting that a `MalformedDocument` error is
reported. -/
theorem c4_counterexample :
    parse_sitemap_xml envStd none "https://x/" = [] ∧
    parse_sitemap_xml envStd (some (XmlElem.mk (nsTag "urlset") none [])) "https://x/" = [] :=
  ⟨rfl, rfl⟩

/-- C4 witness: the fetch-failure half instantiated on a concrete URL. -/
theorem c4_witness :
    envStd.fetch "https://x/s.xml" = none ∧
    (parse_sitemap_url envStd initState "https://x/s.xml" 3).2 = [] :=
  ⟨rfl, c4_theorem.2 envStd initState "https://x/s.xml" 3 rfl⟩

/-- A failed fetch (or parse) of a node makes `parse_sitemap_url` return
the empty list, with no error value. -/
theorem parse_url_fetch_none (env : Env) (st : TState) (url : String) (d : Nat)
    (h : env.fetch url = none) :
    (parse_sitemap_url env st url d).2 = [] := by
  cases d with
  | zero => rw [parse_sitemap_url_zero, parse_step_fetch_none env st url none h]
  | succ d => rw [parse_sitemap_url_succ, parse_step_fetch_none env st url _ h]

/-- C3 (amended): a fetch/parse failure on the ROOT document is swallowed
inside `parse_sitemap_url` (which returns `[]`), so the service reports
`status = "success"` with an empty URL list and `error = None` — no fatal
failure is surfaced; failures on non-root nodes are likewise caught at
the node, contribute nothing, and are recorded nowhere (the result type
has no branch-error list).  In the spec's scenario — a root index with
one reachable two-URL leaf and one failing reference — the result is the
two URLs, `status = "success"`, `error = None`, and no record of the
failed branch. -/
theorem c3_theorem :
    (∀ (env : Env) (denv : DiscEnv) (url : String) (d : Nat),
        strEnds url ".xml" = true → env.fetch url = none →
        parse_sitemap_service env denv url d =
          { urls := [], total_urls := 0, status := "success", error := none }) ∧
    parse_sitemap_service envC3 denvNone "https://x/i.xml" 3 =
      { urls := ["https://x/p1", "https://x/p2"], total_urls := 2,
        status := "success", error := none } := by
  constructor
  · intro env denv url d hx hf
    simp [parse_sitemap_service, hx, parse_url_fetch_none env initState url d hf]
  · decide

/-- C3 counterexample: the root fetch fails, yet the resolution result is
`status = "success"` with `error = None` and an empty list — no fatal
error is surfaced to the caller, refuting the claimed failure contract. -/
theorem c3_counterexample :
    parse_sitemap_service envStd denvNone "https://x/root.xml" 3 =
      { urls := [], total_urls := 0, status := "success", error := none } := by
  decide

/-- C3 witness for the root-failure half of the amended statement. -/
theorem c3_witness :
    strEnds "https://y/a.xml" ".xml" = true ∧
    parse_sitemap_service envStd denvNone "https://y/a.xml" 2 =
      { urls := [], total_urls := 0, status := "success", error := none } :=
  ⟨by decide, c3_theorem.1 envStd denvNone "https://y/a.xml" 2 (by decide) rfl⟩

/-- C6 (amended): any well-formed document whose root's unqualified name
is not `sitemapindex` — `urlset` and unknown roots alike — takes the leaf
branch, and `parse_sitemap_xml` searches for namespaced `url` elements
among all descendants; an unrecognized root therefore contributes its
nested entries rather than a guaranteed empty result (references are only
extracted in the `sitemapindex` branch, so it contributes zero
references). -/
theorem c6_theorem (env : Env) (st : TState) (url : String) (d : Nat) (root : XmlElem)
    (h1 : env.fetch url = some root)
    (h2 : tagAfterBrace root.tag ≠ "sitemapindex") :
    (parse_sitemap_url env st url d).2 = parse_sitemap_xml env (some root) url := by
  cases d with
  | zero => rw [parse_sitemap_url_zero, parse_step_leaf env st url none root h1 h2]
  | succ d => rw [parse_sitemap_url_succ, parse_step_leaf env st url _ root h1 h2]

/-- C6 counterexample: a document with unknown root tag `foo` containing
a namespaced `url`/`loc` pair contributes one page URL, not zero. -/
theorem c6_counterexample :
    tagAfterBrace fooDocC6.tag = "foo" ∧
    (parse_sitemap_url envC6 initState "https://x/f.xml" 3).2 = ["https://x/a"] :=
  ⟨by decide, by decide⟩

/-- C6 witness: the unknown-root document goes through
`parse_sitemap_xml` exactly like a leaf. -/
theorem c6_witness :
    (parse_sitemap_url envC6 initState "https://x/f.xml" 5).2 =
      parse_sitemap_xml envC6 (some fooDocC6) "https://x/f.xml" :=
  c6_theorem envC6 initState "https://x/f.xml" 5 fooDocC6 rfl (by decide)

/-- C7 (amended): an entry whose `loc` child is absent is skipped without
error; but `priority` is not taken verbatim — building the (discarded)
metadata record applies `float` to it, and an entry whose `priority` text
is rejected by `float` aborts extraction at that entry: the URLs already
collected are returned and all remaining entries of the document are
dropped. -/
theorem c7_theorem :
    (∀ (env : Env) (base : String) (urls : List String) (elem : XmlElem)
        (rest : List XmlElem), findChild elem (nsTag "loc") = none →
        parse_sitemap_xml_loop env base (elem :: rest) urls =
          parse_sitemap_xml_loop env base rest urls) ∧
    (∀ (env : Env) (base : String) (urls : List String) (elem : XmlElem)
        (rest : List XmlElem) (u : String) (p : XmlElem) (pt : String),
        entryLoc env base elem = some u →
        findChild elem (nsTag "priority") = some p → p.text = some pt →
        env.floatAccepts pt = false →
        parse_sitemap_xml_loop env base (elem :: rest) urls = urls) := by
  constructor
  · intro env base urls elem rest h
    simp [parse_sitemap_xml_loop, entryLoc, h]
  · intro env base urls elem rest u p pt hloc hp hpt hf
    have hab : priorityAborts env elem = true := by
      simp [priorityAborts, hp, hpt, hf]
    simp [parse_sitemap_xml_loop, hloc, hab]

/-- C7 counterexample: a leaf whose first entry carries the non-numeric
priority `high` yields `[]` — the entry itself and the following
well-formed entry are both lost — while the same document without the
priority yields both URLs, refuting "a malformed single entry never fails
extraction of the rest". -/
theorem c7_counterexample :
    parse_sitemap_xml envStd (some docC7) "https://x/s.xml" = [] ∧
    parse_sitemap_xml envStd (some docC7ok) "https://x/s.xml" =
      ["https://x/a", "https://x/b"] :=
  ⟨by decide, by decide⟩

/-- C7 witness: both halves of the amended statement on concrete
entries. -/
theorem c7_witness :
    parse_sitemap_xml_loop envStd "https://x/" [XmlElem.mk (nsTag "url") none []]
      ["https://x/q"] = ["https://x/q"] ∧
    parse_sitemap_xml_loop envStd "https://x/" [badPriorityEntry, urlEntry "https://x/b"]
      [] = [] := by
  constructor
  · exact (c7_theorem.1 envStd "https://x/" ["https://x/q"]
      (XmlElem.mk (nsTag "url") none []) [] rfl).trans rfl
  · exact c7_theorem.2 envStd "https://x/" [] badPriorityEntry [urlEntry "https://x/b"]
      "https://x/a" (XmlElem.mk (nsTag "priority") (some "high") []) "high"
      (by decide) rfl rfl (by decide)

/-- C8 (amended): every reference emitted by
`_extract_sitemap_locations` is the stripped text of the `loc` child of a
`sitemap` descendant, taken verbatim — no URL joining against the
document's base is applied (unlike leaf entries), and elements without a
usable `loc` are skipped. -/
theorem c8_theorem (root : XmlElem) (s : String)
    (h : s ∈ extract_sitemap_locations root) :
    ∃ se ∈ descendants root, se.tag = nsTag "sitemap" ∧
      ∃ loc t, findChild se (nsTag "loc") = some loc ∧ loc.text = some t ∧
        t ≠ "" ∧ s = strStrip t := by
  unfold extract_sitemap_locations at h
  obtain ⟨se, hse, hmap⟩ := List.mem_filterMap.1 h
  obtain ⟨hmem, htag⟩ := List.mem_filter.1 hse
  refine ⟨se, hmem, by simpa using htag, ?_⟩
  cases hfc : findChild se (nsTag "loc") with
  | none => simp [hfc] at hmap
  | some loc =>
    simp only [hfc] at hmap
    cases htx : loc.text with
    | none => simp [htx] at hmap
    | some t =>
      simp only [htx] at hmap
      by_cases ht : t = ""
      · rw [if_pos ht] at hmap
        exact Option.noConfusion hmap
      · rw [if_neg ht] at hmap
        injection hmap with hmap
        exact ⟨loc, t, rfl, htx, ht, hmap.symm⟩

/-- C8 counterexample: the same root-relative location `/sub.xml` is
joined against the base URL when it appears in a leaf entry but emitted
verbatim when it appears in an index reference — the index does not use
the leaf's relative-URL-joining rule. -/
theorem c8_counterexample :
    extract_sitemap_locations (indexDoc ["/sub.xml"]) = ["/sub.xml"] ∧
    parse_sitemap_xml envStd (some (leafDoc ["/sub.xml"])) "https://x/root.xml" =
      ["https://x/sub.xml"] ∧
    ("/sub.xml" : String) ≠ "https://x/sub.xml" :=
  ⟨by decide, by decide, by decide⟩

/-- C8 witness: the verbatim-extraction characterization instantiated on
the concrete relative reference. -/
theorem c8_witness :
    ∃ se ∈ descendants (indexDoc ["/sub.xml"]), se.tag = nsTag "sitemap" ∧
      ∃ loc t, findChild se (nsTag "loc") = some loc ∧ loc.text = some t ∧
        t ≠ "" ∧ "/sub.xml" = strStrip t :=
  c8_theorem (indexDoc ["/sub.xml"]) "/sub.xml" (by decide)

/-! ### Discovery: first conventional path, then first robots directive -/

theorem try_common_paths_eq (env : DiscEnv) (base : String) :
    ∀ l : List String, try_common_paths env base l =
      (l.find? (fun p => env.head (base ++ p) == some 200)).map (fun p => base ++ p) := by
  intro l
  induction l with
  | nil => rfl
  | cons p rest ih =>
    cases hh : env.head (base ++ p) with
    | none => simp [try_common_paths, hh, List.find?, ih]
    | some code =>
      by_cases hc : code = 200
      · subst hc
        simp [try_common_paths, hh, List.find?]
      · have hcb : (code == 200) = false := beq_eq_false_iff_ne.mpr hc
        simp [try_common_paths, hh, hc, hcb, List.find?, ih]

theorem scan_robots_lines_eq :
    ∀ lines : List String, scan_robots_lines lines =
      (lines.find? (fun line => strStarts (strLowerAscii line) "sitemap:")).map
        robots_line_url := by
  intro lines
  induction lines with
  | nil => rfl
  | cons line rest ih =>
    cases hl : strStarts (strLowerAscii line) "sitemap:" with
    | true => simp [scan_robots_lines, hl, List.find?]
    | false => simp [scan_robots_lines, hl, List.find?, ih]

/-- C9: discovery probes the fixed ordered conventional-path list against
`scheme://netloc` and the first path whose existence check answers 200
wins (first match in list order — `List.find?`); when no conventional
path succeeds, the robots file is scanned line by line
(case-insensitively) and the URL after the colon of the first `sitemap:`
directive is returned; when neither source yields anything the result is
`none` — a negative answer, not an error. -/
theorem c9_theorem (env : DiscEnv) (base_url : String) :
    (∀ p, common_paths.find?
        (fun q => env.head (env.schemeNetloc base_url ++ q) == some 200) = some p →
      discover_sitemap env base_url = some (env.schemeNetloc base_url ++ p)) ∧
    (common_paths.find?
        (fun q => env.head (env.schemeNetloc base_url ++ q) == some 200) = none →
      ∀ text, env.get (env.schemeNetloc base_url ++ "/robots.txt") = some (200, text) →
      ∀ line, (strSplitChar text '\n').find?
          (fun l => strStarts (strLowerAscii l) "sitemap:") = some line →
        discover_sitemap env base_url = some (robots_line_url line)) ∧
    (common_paths.find?
        (fun q => env.head (env.schemeNetloc base_url ++ q) == some 200) = none →
      (∀ code text, env.get (env.schemeNetloc base_url ++ "/robots.txt") =
          some (code, text) → code = 200 →
        (strSplitChar text '\n').find?
          (fun l => strStarts (strLowerAscii l) "sitemap:") = none) →
      discover_sitemap env base_url = none) := by
  refine ⟨?_, ?_, ?_⟩
  · intro p hp
    simp only [discover_sitemap]
    rw [try_common_paths_eq, hp]
    rfl
  · intro hnone text hget line hline
    simp only [discover_sitemap]
    rw [try_common_paths_eq, hnone]
    simp [hget, scan_robots_lines_eq, hline]
  · intro hnone hrob
    simp only [discover_sitemap]
    rw [try_common_paths_eq, hnone]
    cases hget : env.get (env.schemeNetloc base_url ++ "/robots.txt") with
    | none => simp [hget]
    | some ct =>
      obtain ⟨code, text⟩ := ct
      by_cases hc : code = 200
      · subst hc
        simp [hget, scan_robots_lines_eq, hrob 200 text hget rfl]
      · simp [hget, hc]

/-- C9 witness: the spec's two discovery scenarios — robots fallback
finding `Sitemap: https://x/custom.xml`, and the fully negative case. -/
theorem c9_witness :
    discover_sitemap denvC9 "https://x/" = some "https://x/custom.xml" ∧
    discover_sitemap denvNone "https://y/" = none := by
  constructor
  · exact ((c9_theorem denvC9 "https://x/").2.1 (by decide)
      "User-agent: *\nSitemap: https://x/custom.xml" (by decide)
      "Sitemap: https://x/custom.xml" (by decide)).trans (by decide)
  · exact (c9_theorem denvNone "https://y/").2.2 (by decide)
      (fun code text hget _ => Option.noConfusion hget)

/-! ### Depth boundary:  a chain of nested indices -/

theorem parse_url_go_leaf_snd (env : Env) (d : Nat) (st : TState) (url : String)
    (root : XmlElem) (h1 : env.fetch url = some root)
    (h2 : ¬ tagAfterBrace root.tag = "sitemapindex") :
    (parse_url_go env d st url).2 = parse_sitemap_xml env (some root) url := by
  cases d with
  | zero =>
    rw [show parse_url_go env 0 st url = parse_step env st url none from rfl,
      parse_step_leaf env st url none root h1 h2]
  | succ d =>
    rw [show parse_url_go env (d + 1) st url =
        parse_step env st url (some (processList (fun s u => parse_url_go env d s u)))
        from rfl,
      parse_step_leaf env st url _ root h1 h2]

theorem parse_url_go_index_zero_snd (env : Env) (st : TState) (url : String)
    (root : XmlElem) (h1 : env.fetch url = some root)
    (h2 : tagAfterBrace root.tag = "sitemapindex") :
    (parse_url_go env 0 st url).2 = [] := by
  rw [show parse_url_go env 0 st url = parse_step env st url none from rfl,
    parse_step_index_stop env st url root h1 h2]

theorem parse_url_go_index_succ_snd (env : Env) (d : Nat) (st : TState) (url : String)
    (root : XmlElem) (h1 : env.fetch url = some root)
    (h2 : tagAfterBrace root.tag = "sitemapindex") :
    (parse_url_go env (d + 1) st url).2 =
      (processList (fun s u => parse_url_go env d s u)
        { st with fetch_trace := st.fetch_trace ++ [url] }
        (extract_sitemap_locations root)).2 := by
  rw [show parse_url_go env (d + 1) st url =
      parse_step env st url (some (processList (fun s u => parse_url_go env d s u)))
      from rfl,
    parse_step_index_go env st url root _ h1 h2]

/-- The URL names of the chain: `j` letters `x` (injective through the
length, and stable under `strip`). -/
def uName (j : Nat) : String := String.mk (List.replicate j 'x')

/-- The single page URL carried by the chain's final leaf. -/
def pageUrl : String := "https://x/page"

/-- Node `j` of an `n`-chain: an index referencing node `j + 1` while
`j < n`, the one-entry leaf at `j = n`. -/
def chainDoc (n j : Nat) : XmlElem :=
  if j < n then indexDoc [uName (j + 1)] else leafDoc [pageUrl]

/-- Fetch oracle of the `n`-chain: URL `uName j` (for `j ≤ n`) resolves
to node `j`; everything else fails. -/
def chainFetch (n : Nat) (s : String) : Option XmlElem :=
  if s.length ≤ n ∧ s = uName s.length then some (chainDoc n s.length) else none

/-- The `n`-chain environment: the root index sits at nesting depth 0,
the deepest index at depth `n - 1`, the leaf at depth `n`. -/
def chainEnv (n : Nat) : Env := { envStd with fetch := chainFetch n }

theorem uName_length (j : Nat) : (uName j).length = j := by
  show (List.replicate j 'x').length = j
  exact List.length_replicate j 'x'

theorem uName_inj (j k : Nat) (h : uName j = uName k) : j = k := by
  have := congrArg String.length h
  rwa [uName_length, uName_length] at this

theorem uName_ne_empty (k : Nat) (hk : 1 ≤ k) : uName k ≠ "" := by
  intro h
  have := congrArg String.length h
  rw [uName_length] at this
  simp at this
  omega

theorem chainFetch_uName (n j : Nat) (h : j ≤ n) :
    chainFetch n (uName j) = some (chainDoc n j) := by
  unfold chainFetch
  rw [uName_length]
  rw [if_pos ⟨h, rfl⟩]

theorem chainDoc_lt (n j : Nat) (h : j < n) : chainDoc n j = indexDoc [uName (j + 1)] := by
  unfold chainDoc
  rw [if_pos h]

theorem chainDoc_self (n : Nat) : chainDoc n n = leafDoc [pageUrl] := by
  unfold chainDoc
  rw [if_neg (lt_irrefl n)]

theorem dropWhile_replicate_x (k : Nat) :
    List.dropWhile Char.isWhitespace (List.replicate k 'x') = List.replicate k 'x' := by
  cases k with
  | zero => rfl
  | succ k =>
    rw [List.replicate_succ]
    exact List.dropWhile_cons_of_neg (by decide)

theorem strStrip_uName (k : Nat) : strStrip (uName k) = uName k := by
  unfold strStrip
  rw [show (uName k).toList = List.replicate k 'x' from rfl]
  rw [dropWhile_replicate_x, List.reverse_replicate, dropWhile_replicate_x,
    List.reverse_replicate]
  rfl

theorem tag_indexDoc (ts : List String) :
    tagAfterBrace (indexDoc ts).tag = "sitemapindex" := by
  show tagAfterBrace (nsTag "sitemapindex") = "sitemapindex"
  decide

theorem tag_leafDoc (ts : List String) :
    ¬ tagAfterBrace (leafDoc ts).tag = "sitemapindex" := by
  show ¬ tagAfterBrace (nsTag "urlset") = "sitemapindex"
  decide

theorem extract_indexDoc (u : String) (hu : u ≠ "") :
    extract_sitemap_locations (indexDoc [u]) = [strStrip u] := by
  simp [extract_sitemap_locations, indexDoc, sitemapRef, locElem, descendants,
    descendantsList, findChild, XmlElem.tag, XmlElem.text, XmlElem.children, nsTag, hu]

theorem extract_indexDoc_uName (k : Nat) (hk : 1 ≤ k) :
    extract_sitemap_locations (indexDoc [uName k]) = [uName k] := by
  rw [extract_indexDoc (uName k) (uName_ne_empty k hk), strStrip_uName]

theorem chain_leaf_eval (n : Nat) (base : String) :
    parse_sitemap_xml (chainEnv n) (some (leafDoc [pageUrl])) base = [pageUrl] := rfl

theorem chain_fetch_leaf (n : Nat) : (chainEnv n).fetch (uName n) = some (leafDoc [pageUrl]) := by
  show chainFetch n (uName n) = _
  rw [chainFetch_uName n n le_rfl, chainDoc_self]

theorem chain_fetch_index (n j : Nat) (h : j < n) :
    (chainEnv n).fetch (uName j) = some (indexDoc [uName (j + 1)]) := by
  show chainFetch n (uName j) = _
  rw [chainFetch_uName n j (Nat.le_of_lt h), chainDoc_lt n j h]

theorem chain_parse (n : Nat) :
    ∀ (b j : Nat) (st : TState), j ≤ n →
      (∀ k, j < k → k ≤ n → uName k ∉ st.processed_indices) →
      (parse_url_go (chainEnv n) b st (uName j)).2 =
        if n - j ≤ b then [pageUrl] else [] := by
  intro b
  induction b with
  | zero =>
    intro j st hj hfresh
    by_cases hjn : j = n
    · subst hjn
      rw [parse_url_go_leaf_snd (chainEnv j) 0 st (uName j) (leafDoc [pageUrl])
        (chain_fetch_leaf j) (tag_leafDoc _), chain_leaf_eval, if_pos (by omega)]
    · have hlt : j < n := lt_of_le_of_ne hj hjn
      rw [parse_url_go_index_zero_snd (chainEnv n) st (uName j) (indexDoc [uName (j + 1)])
        (chain_fetch_index n j hlt) (tag_indexDoc _), if_neg (by omega)]
  | succ b ih =>
    intro j st hj hfresh
    by_cases hjn : j = n
    · subst hjn
      rw [parse_url_go_leaf_snd (chainEnv j) (b + 1) st (uName j) (leafDoc [pageUrl])
        (chain_fetch_leaf j) (tag_leafDoc _), chain_leaf_eval, if_pos (by omega)]
    · have hlt : j < n := lt_of_le_of_ne hj hjn
      rw [parse_url_go_index_succ_snd (chainEnv n) b st (uName j) (indexDoc [uName (j + 1)])
        (chain_fetch_index n j hlt) (tag_indexDoc _),
        extract_indexDoc_uName (j + 1) (by omega)]
      have hmem : uName (j + 1) ∉
          ({ st with fetch_trace := st.fetch_trace ++ [uName j] } : TState).processed_indices :=
        hfresh (j + 1) (by omega) (by omega)
      rw [processList_cons_new _ _ _ _ hmem]
      simp only [processList_nil, List.append_nil]
      have hfresh' : ∀ k, j + 1 < k → k ≤ n →
          uName k ∉ (st.processed_indices ++ [uName (j + 1)]) := by
        intro k hk1 hk2 hmemk
        rcases List.mem_append.1 hmemk with hm | hm
        · exact hfresh k (by omega) hk2 hm
        · have heq : uName k = uName (j + 1) := by simpa using hm
          have := uName_inj k (j + 1) heq
          omega
      rw [ih (j + 1) _ (by omega) hfresh']
      by_cases hc : n - (j + 1) ≤ b
      · rw [if_pos hc, if_pos (by omega)]
      · rw [if_neg hc, if_neg (by omega)]

/-- C5 (amended): recursion is suppressed, without error, exactly when an
index is reached with remaining depth 0; since the root runs at depth `d`
and each reference at one less, an index nested at depth exactly `d`
below the root contributes zero URLs, while an index nested at depth
`d - 1` (the deepest index of a `d`-chain) contributes its URLs: the
`d`-chain resolves to the leaf's page at depth budget `d`, and the
`(d+1)`-chain — whose deepest index sits at depth `d` — yields nothing. -/
theorem c5_theorem (d : Nat) :
    (parse_sitemap_url (chainEnv d) initState (uName 0) d).2 = [pageUrl] ∧
    (parse_sitemap_url (chainEnv (d + 1)) initState (uName 0) d).2 = [] := by
  constructor
  · rw [show parse_sitemap_url (chainEnv d) initState (uName 0) d =
        parse_url_go (chainEnv d) d initState (uName 0) from rfl]
    rw [chain_parse d d 0 initState (Nat.zero_le d)
      (by intro k _ _ h; simp [initState] at h)]
    rw [if_pos (by omega)]
  · rw [show parse_sitemap_url (chainEnv (d + 1)) initState (uName 0) d =
        parse_url_go (chainEnv (d + 1)) d initState (uName 0) from rfl]
    rw [chain_parse (d + 1) d 0 initState (Nat.zero_le _)
      (by intro k _ _ h; simp [initState] at h)]
    rw [if_neg (by omega)]

/-- C5 counterexample: in a chain root-index → index → leaf, the inner
index is nested at depth 1; resolving with depth budget `d = 1` yields
zero URLs although the claim promises that an index at depth `d`
contributes its URLs (budget 2 recovers them, so the loss is due to the
depth check, not the documents). -/
theorem c5_counterexample :
    (parse_sitemap_url (chainEnv 2) initState (uName 0) 1).2 = [] ∧
    (parse_sitemap_url (chainEnv 2) initState (uName 0) 2).2 = [pageUrl] :=
  ⟨by decide, by decide⟩
